import Mathlib

/-!
Verification of the environment-resolution core of the `envy` CLI.

This file gives a shallow embedding, in Lean, of the pure logic of the
program: line parsing (`split_env_var`), env-file reading
(`get_env_vars_from_file`), directory/pattern matching over the settings
(`matching_env_files`, `matching_patterns`), assembly of the exported
variable list (`exportVars`) and the per-shell output formatters
(`export_bash_zsh`, `export_fish`, `export_json`), as well as the
`.envrc` sandbox result handling (`process_envrc`, `parse_env_output`)
from `bash.rs`.  File-system reads are modelled by passing file contents
as strings, and the bash subprocess is modelled by its observable output
(exit status, stdout, stderr).  Rust string operations (`trim`,
`lines`, `split_once`, `starts_with`, `strip_prefix`) are re-implemented
on character lists so that every definition is executable and proofs can
evaluate them on concrete inputs.
-/

namespace Envy

/-! ## Rust string primitives, embedded on character lists -/

/-- Characters considered whitespace by trimming (ASCII fragment of Rust
`char::is_whitespace`, which is what the program ever encounters). -/
def trimChars (l : List Char) : List Char :=
  ((l.dropWhile Char.isWhitespace).reverse.dropWhile Char.isWhitespace).reverse

/-- Embedding of Rust `str::trim`. -/
def rustTrim (s : String) : String :=
  String.mk (trimChars s.toList)

/-- Embedding of Rust `str::starts_with`. -/
def rustStartsWith (s pre : String) : Bool :=
  pre.toList.isPrefixOf s.toList

/-- Split a character list at the first occurrence of `c`, dropping `c`
itself; `none` when `c` does not occur (Rust `str::split_once`). -/
def splitOnceChar (c : Char) : List Char → Option (List Char × List Char)
  | [] => none
  | x :: xs =>
      if x = c then some ([], xs)
      else
        match splitOnceChar c xs with
        | some p => some (x :: p.1, p.2)
        | none => none

/-- Embedding of Rust `str::split_once`. -/
def splitOnce (c : Char) (s : String) : Option (String × String) :=
  (splitOnceChar c s.toList).map (fun p => (String.mk p.1, String.mk p.2))

/-- Segments of a character list delimited by newline characters
(always a non-empty list of segments). -/
def splitLinesChar : List Char → List (List Char)
  | [] => [[]]
  | c :: rest =>
      match splitLinesChar rest with
      | [] => [[]]
      | seg :: segs =>
          if c = '\n' then [] :: seg :: segs else (c :: seg) :: segs

/-- Remove one trailing carriage return, as Rust `str::lines` does for
`\r\n` line endings. -/
def stripCR (l : List Char) : List Char :=
  if l.getLast? = some ('\r') then l.dropLast else l

/-- Embedding of Rust `str::lines`: split on `\n`, strip a trailing `\r`
from each line that was terminated, and do not yield a final empty line
for a trailing newline. -/
def rustLines (s : String) : List String :=
  let segs := splitLinesChar s.toList
  let body := (segs.dropLast.map stripCR).map (fun l => String.mk l)
  match segs.getLast? with
  | some last => if last = [] then body else body ++ [String.mk last]
  | none => body

/-! ## `main.rs`: env-file reading and line parsing -/

/-- Embedding of `get_env_vars_from_file` (`main.rs`): the file content is
passed as a string; the function keeps, in order, every line that does
not start with the character `#`. -/
def get_env_vars_from_file (content : String) : List String :=
  (rustLines content).filter (fun line => !(rustStartsWith line ("#")))

/-- Embedding of `split_env_var` (`main.rs`): trim the line, strip an
`export ` prefix when present, split on the first `=`, and trim key and
value. -/
def split_env_var (var : String) : Option (String × String) :=
  let trimmed := trimChars var.toList
  let v :=
    if ("export ").toList.isPrefixOf trimmed then trimmed.drop 7 else trimmed
  (splitOnceChar '=' v).map
    (fun p => (String.mk (trimChars p.1), String.mk (trimChars p.2)))

/-! ## `settings.rs`: the settings model and the two matchers -/

/-- A canonicalized absolute path, as its list of components; `[]` is the
filesystem root. -/
abbrev EnvPath := List String

/-- Embedding of Rust `Path::parent` on canonicalized absolute paths. -/
def parent : EnvPath → Option EnvPath
  | [] => none
  | p => some p.dropLast

/-- String form of a path (`Path::to_string_lossy` on a canonical
absolute path). -/
def pathStr (p : EnvPath) : String :=
  ("/") ++ String.intercalate ("/") p

/-- Embedding of `PathConfig` (`settings.rs`); the compiled regex is
abstracted to its matching function on strings. -/
structure PathConfig where
  pattern : String → Bool
  env : List String

/-- Embedding of `EnvySettings` (`settings.rs`). -/
structure EnvySettings where
  envs : Option (List EnvPath)
  paths : Option (List PathConfig)

/-- Embedding of `EnvySettings::matching_patterns`: the variables of the
first configured rule whose pattern matches the directory's string form. -/
def matching_patterns (s : EnvySettings) (dir : EnvPath) : Option (List String) :=
  match s.paths with
  | none => none
  | some ps =>
      (ps.find? (fun pc => pc.pattern (pathStr dir))).map (fun pc => pc.env)

/-- Embedding of `EnvySettings::matching_env_files`: the registered files
whose parent directory is a component-wise prefix of the target
directory. -/
def matching_env_files (s : EnvySettings) (dir : EnvPath) : List EnvPath :=
  (s.envs.getD []).filter (fun env =>
    match parent env with
    | some envDir => envDir.isPrefixOf dir
    | none => false)

/-- The DirectoryMatcher activation rule as the spec words it: a file is
active for `dir` iff `dir` equals, or is a component-wise descendant of,
the file's parent directory. -/
def activeFor (f dir : EnvPath) : Bool :=
  match parent f with
  | some p => p.isPrefixOf dir
  | none => false

/-! ## `main.rs`: export assembly and the output formatters -/

/-- Embedding of the variable-collection phase of `export` (`main.rs`):
pattern variables are appended first, then each matching env file's
lines, the file contents being supplied by `fileContent`. -/
def exportVars (s : EnvySettings) (fileContent : EnvPath → String)
    (dir : EnvPath) : List String :=
  let base : List String :=
    match matching_patterns s dir with
    | some patterns => [] ++ patterns
    | none => []
  (matching_env_files s dir).foldl
    (fun acc f => acc ++ get_env_vars_from_file (fileContent f)) base

/-- Embedding of `export_bash_zsh` (`main.rs`), as the list of printed
lines. -/
def export_bash_zsh (env_vars : List String) : List String :=
  env_vars.map (fun v =>
    if rustStartsWith v ("export ") then v else ("export ") ++ v)

/-- Embedding of `export_fish` (`main.rs`), as the list of printed
lines. -/
def export_fish (env_vars : List String) : List String :=
  env_vars.filterMap (fun v =>
    (split_env_var v).map (fun kv => ("set -gx ") ++ kv.1 ++ (" ") ++ kv.2))

/-- Insert-or-replace into an association list with unique keys: the
embedding of `Map::insert` for both `serde_json::Map` and
`HashMap` (only the key-to-value view of those maps is relied upon). -/
def upsert : List (String × String) → String → String → List (String × String)
  | [], k, v => [(k, v)]
  | p :: rest, k, v =>
      if p.1 = k then (k, v) :: rest else p :: upsert rest k v

/-- Key lookup in an association list (the key-to-value view of a map). -/
def lookupKV (m : List (String × String)) (k : String) : Option String :=
  (m.find? (fun p => p.1 == k)).map (fun p => p.2)

/-- Embedding of `export_json` (`main.rs`): the serde map built by
inserting, in order, every line that parses as a key/value pair. -/
def export_json (env_vars : List String) : List (String × String) :=
  (env_vars.filterMap split_env_var).foldl (fun m kv => upsert m kv.1 kv.2) []

/-! ## `bash.rs`: sandbox output parsing and `process_envrc` -/

/-- The start sentinel emitted by the extraction script. -/
def envStartMarker : String := "=== ENVY_ENV_START ==="

/-- The end sentinel emitted by the extraction script. -/
def envEndMarker : String := "=== ENVY_ENV_END ==="

/-- One body line of the env section: split on the first `=` and insert;
lines without `=` are skipped (`if let Some(..) = line.split_once('=')`
in `parse_env_output`). -/
def insertLine (m : List (String × String)) (l : String) : List (String × String) :=
  match splitOnce '=' l with
  | some kv => upsert m kv.1 kv.2
  | none => m

/-- The line loop of `parse_env_output` (`bash.rs`): trims each line,
toggles into the env section at the start sentinel, stops at the end
sentinel, and inserts non-empty section lines. -/
def parseEnvLoop : List String → List (String × String) → Bool → List (String × String)
  | [], env_vars, _ => env_vars
  | l :: rest, env_vars, in_env_section =>
      let line := rustTrim l
      if line = envStartMarker then
        parseEnvLoop rest env_vars true
      else if line = envEndMarker then
        env_vars
      else if in_env_section = true ∧ line ≠ ("") then
        parseEnvLoop rest (insertLine env_vars line) in_env_section
      else
        parseEnvLoop rest env_vars in_env_section

/-- Embedding of `parse_env_output` (`bash.rs`). -/
def parse_env_output (output : String) : List (String × String) :=
  parseEnvLoop (rustLines output) [] false

/-- The observable result of the bash subprocess spawned by
`process_envrc`: exit status, captured stdout and captured stderr. -/
structure ProcessOutput where
  success : Bool
  stdout : String
  stderr : String

/-- Embedding of `process_envrc` (`bash.rs`), given the subprocess
result: a non-zero exit is a hard error carrying stderr; on success the
stdout is parsed. -/
def process_envrc (out : ProcessOutput) : Except String (List (String × String)) :=
  if out.success = false then
    Except.error (("Bash script execution failed: ") ++ out.stderr)
  else
    Except.ok (parse_env_output out.stdout)

/-- Embedding of `is_envrc_file` (`bash.rs`). -/
def is_envrc_file (p : EnvPath) : Bool :=
  match p.getLast? with
  | some name => name = (".envrc")
  | none => false

/-! ## Spec-side models used by refinement claims -/

/-- The resolution data flow claimed by the spec (§2, §4.5): matched plain
files go through the env-file reader, while matched script files (those
named `.envrc`) go through the script sandbox, whose subprocess is
modelled by `run`; the extracted mapping is rendered back to `KEY=value`
strings. -/
def exportVarsSpec (s : EnvySettings) (fileContent : EnvPath → String)
    (run : EnvPath → ProcessOutput) (dir : EnvPath) : List String :=
  (match matching_patterns s dir with
    | some patterns => patterns
    | none => []) ++
  (matching_env_files s dir).flatMap (fun f =>
    if is_envrc_file f then
      (parse_env_output (run f).stdout).map (fun kv => kv.1 ++ ("=") ++ kv.2)
    else get_env_vars_from_file (fileContent f))

/-- Sandbox output parsing exactly as the claim words it: all text before
the start sentinel line is ignored, lines strictly between the sentinels
are split (untrimmed) on the first `=`, and text after the end sentinel
is ignored; last occurrence of a key wins. -/
def parseEnvOutputClaimed (output : String) : List (String × String) :=
  let ls := rustLines output
  let between :=
    ((ls.dropWhile (fun l => l != envStartMarker)).drop 1).takeWhile
      (fun l => l != envEndMarker)
  between.foldl insertLine []

/-- Sandbox output parsing as amended: each line is trimmed before
sentinel comparison and splitting, parsing stops at the first
end-sentinel line even before any start sentinel, and between the
sentinels blank lines and further start-sentinel lines are skipped. -/
def parseEnvOutputAmendedSpec (output : String) : List (String × String) :=
  let ls := (rustLines output).map rustTrim
  let upto := ls.takeWhile (fun l => l != envEndMarker)
  let body := (upto.dropWhile (fun l => l != envStartMarker)).filter
    (fun l => (l != envStartMarker) && (l != ("")))
  body.foldl insertLine []

/-! ## Helper lemmas -/

/-- Folding accumulator-append over a list is appending the flat map. -/
theorem foldl_append_flatMap {α β : Type} (g : α → List β) :
    ∀ (l : List α) (base : List β),
      l.foldl (fun acc f => acc ++ g f) base = base ++ l.flatMap g := by
  intro l
  induction l with
  | nil => intro base; simp
  | cons x xs ih => intro base; simp [List.foldl_cons, ih]

/-- Trimming only removes characters. -/
theorem mem_of_mem_trimChars {c : Char} {l : List Char}
    (h : c ∈ trimChars l) : c ∈ l := by
  unfold trimChars at h
  rw [List.mem_reverse] at h
  have h2 := (List.dropWhile_sublist (l := (l.dropWhile Char.isWhitespace).reverse)
    (p := Char.isWhitespace)).subset h
  rw [List.mem_reverse] at h2
  exact (List.dropWhile_sublist (p := Char.isWhitespace)).subset h2

/-- `splitOnceChar` finds nothing when the character is absent. -/
theorem splitOnceChar_eq_none {c : Char} :
    ∀ {l : List Char}, c ∉ l → splitOnceChar c l = none := by
  intro l
  induction l with
  | nil => intro _; rfl
  | cons x xs ih =>
      intro h
      have hx : ¬x = c := fun hc => h (hc ▸ List.mem_cons_self x xs)
      have hxs : c ∉ xs := fun hc => h (List.mem_cons_of_mem x hc)
      simp [splitOnceChar, hx, ih hxs]

/-- A line with no `=` character never parses as a key/value pair. -/
theorem split_env_var_eq_none {v : String} (h : ('=') ∉ v.toList) :
    split_env_var v = none := by
  have htrim : ('=') ∉ trimChars v.toList := fun hc => h (mem_of_mem_trimChars hc)
  have hdrop : ('=') ∉ (trimChars v.toList).drop 7 := fun hc =>
    htrim ((List.drop_sublist 7 (trimChars v.toList)).subset hc)
  simp only [split_env_var]
  split
  · rw [splitOnceChar_eq_none hdrop]; rfl
  · rw [splitOnceChar_eq_none htrim]; rfl

/-- Key lookup steps through a cons cell. -/
theorem lookupKV_cons (p : String × String) (m : List (String × String))
    (q : String) :
    lookupKV (p :: m) q = if p.1 = q then some p.2 else lookupKV m q := by
  by_cases h : p.1 = q
  · simp [lookupKV, List.find?, h]
  · simp [lookupKV, List.find?, beq_false_of_ne h, h]

/-- Looking a key up after an insert-or-replace. -/
theorem lookupKV_upsert (m : List (String × String)) (k v q : String) :
    lookupKV (upsert m k v) q = if k = q then some v else lookupKV m q := by
  induction m with
  | nil =>
      by_cases hq : k = q
      · simp [upsert, lookupKV_cons, hq]
      · simp [upsert, lookupKV_cons, hq, lookupKV]
  | cons p rest ih =>
      by_cases hp : p.1 = k
      · have hup : upsert (p :: rest) k v = (k, v) :: rest := by
          simp [upsert, hp]
        rw [hup, lookupKV_cons, lookupKV_cons]
        by_cases hq : k = q
        · simp [hq]
        · have hpq : ¬p.1 = q := by rw [hp]; exact hq
          simp [hq, hpq]
      · have hup : upsert (p :: rest) k v = p :: upsert rest k v := by
          simp [upsert, hp]
        rw [hup, lookupKV_cons, lookupKV_cons, ih]
        by_cases hpq : p.1 = q
        · have hkq : ¬k = q := fun hh => hp (by rw [hpq, hh])
          simp [hpq, hkq]
        · simp [hpq]

/-- Looking a key up after folding insert-or-replace over a pair list:
the last matching pair wins, falling back to the initial map. -/
theorem lookupKV_foldl_upsert :
    ∀ (ps : List (String × String)) (m : List (String × String)) (k : String),
      lookupKV (ps.foldl (fun m kv => upsert m kv.1 kv.2) m) k =
        match ps.reverse.find? (fun p => p.1 == k) with
        | some kv => some kv.2
        | none => lookupKV m k := by
  intro ps
  induction ps with
  | nil => intro m k; simp
  | cons a rest ih =>
      intro m k
      rw [List.foldl_cons, ih, List.reverse_cons, List.find?_append]
      cases hfind : rest.reverse.find? (fun p => p.1 == k) with
      | some kv => simp [Option.or]
      | none =>
          by_cases hk : a.1 = k
          · simp [Option.or, List.find?, hk, lookupKV_upsert]
          · simp [Option.or, List.find?, beq_false_of_ne hk,
              lookupKV_upsert, hk]

/-- Inside the env section, the loop folds `insertLine` over the trimmed
lines up to the end sentinel, skipping start-sentinel lines and blank
lines. -/
theorem parseEnvLoop_true (ls : List String) :
    ∀ m, parseEnvLoop ls m true =
      (((ls.map rustTrim).takeWhile (fun l => l != envEndMarker)).filter
        (fun l => (l != envStartMarker) && (l != ("")))).foldl insertLine m := by
  induction ls with
  | nil => intro m; rfl
  | cons l rest ih =>
      intro m
      by_cases h1 : rustTrim l = envStartMarker
      · simp [parseEnvLoop, h1, List.takeWhile_cons, List.filter_cons, ih,
          show (envStartMarker != envEndMarker) = true from by decide,
          show ¬(envStartMarker = envEndMarker) from by decide]
      · by_cases h2 : rustTrim l = envEndMarker
        · simp [parseEnvLoop, h1, h2, List.takeWhile_cons,
            show ¬(envEndMarker = envStartMarker) from by decide]
        · by_cases h3 : rustTrim l = ("")
          · simp [parseEnvLoop, h1, h2, h3, List.takeWhile_cons,
              List.filter_cons, ih,
              show ((("") : String) != envEndMarker) = true from by decide,
              show ((("") : String) != envStartMarker) = true from by decide,
              show ¬((("") : String) = envStartMarker) from by decide,
              show ¬((("") : String) = envEndMarker) from by decide]
          · simp [parseEnvLoop, h1, h2, h3, List.takeWhile_cons,
              List.filter_cons, ih, bne_iff_ne]

/-- Before the start sentinel, the loop skips lines until the start
sentinel (stopping early at an end sentinel), then behaves as inside the
section. -/
theorem parseEnvLoop_false (ls : List String) :
    ∀ m, parseEnvLoop ls m false =
      ((((ls.map rustTrim).takeWhile (fun l => l != envEndMarker)).dropWhile
          (fun l => l != envStartMarker)).filter
        (fun l => (l != envStartMarker) && (l != ("")))).foldl insertLine m := by
  induction ls with
  | nil => intro m; rfl
  | cons l rest ih =>
      intro m
      by_cases h1 : rustTrim l = envStartMarker
      · simp [parseEnvLoop, h1, List.takeWhile_cons, List.dropWhile_cons,
          List.filter_cons, parseEnvLoop_true,
          show (envStartMarker != envEndMarker) = true from by decide,
          show ¬(envStartMarker = envEndMarker) from by decide]
      · by_cases h2 : rustTrim l = envEndMarker
        · simp [parseEnvLoop, h1, h2, List.takeWhile_cons,
            show ¬(envEndMarker = envStartMarker) from by decide]
        · simp [parseEnvLoop, h1, h2, List.takeWhile_cons,
            List.dropWhile_cons, ih, bne_iff_ne]

/-- The loop never looks past the first end-sentinel line. -/
theorem parseEnvLoop_stop (pre post : List String) :
    ∀ (m : List (String × String)) (b : Bool),
      parseEnvLoop (pre ++ envEndMarker :: post) m b =
        parseEnvLoop (pre ++ [envEndMarker]) m b := by
  induction pre with
  | nil =>
      intro m b
      simp [parseEnvLoop, show rustTrim envEndMarker = envEndMarker from by decide,
        show ¬(envEndMarker = envStartMarker) from by decide]
  | cons l pre ih =>
      intro m b
      by_cases h1 : rustTrim l = envStartMarker
      · simp [parseEnvLoop, h1, ih]
      · by_cases h2 : rustTrim l = envEndMarker
        · simp [parseEnvLoop, h1, h2,
            show ¬(envEndMarker = envStartMarker) from by decide]
        · by_cases h3 : b = true ∧ rustTrim l ≠ ("")
          · simp [parseEnvLoop, h1, h2, h3, ih]
          · simp [parseEnvLoop, h1, h2, h3, ih]

/-- The export assembly is the pattern variables followed by each
matching file's reader output, in order. -/
theorem exportVars_decomposed (s : EnvySettings) (fileContent : EnvPath → String)
    (dir : EnvPath) :
    exportVars s fileContent dir =
      (matching_patterns s dir).getD [] ++
        (matching_env_files s dir).flatMap
          (fun f => get_env_vars_from_file (fileContent f)) := by
  simp only [exportVars]
  rw [foldl_append_flatMap]
  cases h : matching_patterns s dir <;> simp [h]

/-! ## Claim theorems -/

/-- Claim C2, counterexample: the trimmed line `#FOO=bar` begins with `#`
yet `split_env_var` parses it to a pair (there is no comment check), so
the parser does not return none on every comment line. -/
theorem claim_C2_counterexample :
    rustStartsWith (rustTrim ("#FOO=bar")) ("#") = true ∧
    split_env_var ("#FOO=bar") = some (("#FOO"), ("bar")) ∧
    (split_env_var ("#FOO=bar")).isSome = true := by
  refine ⟨by decide, by decide, by decide⟩

/-- Claim C2 (amended): `split_env_var` returns none for every line whose
trimmed form is empty and for every line containing no `=` character;
comment lines are not special-cased. -/
theorem claim_C2_amended :
    (∀ v : String, trimChars v.toList = [] → split_env_var v = none) ∧
    (∀ v : String, ('=') ∉ v.toList → split_env_var v = none) := by
  constructor
  · intro v h
    simp only [split_env_var, h]
    decide
  · intro v h
    exact split_env_var_eq_none h

/-- Claim C2, witness: the amended statement at a whitespace-only line
and at a line with no `=`. -/
theorem claim_C2_amended_witness :
    split_env_var ("   ") = none ∧ split_env_var ("hello world") = none :=
  ⟨claim_C2_amended.1 ("   ") (by decide),
   claim_C2_amended.2 ("hello world") (by decide)⟩

/-- Claim C3, counterexample: a blank line and a line whose `#` is
preceded by whitespace are both returned by `get_env_vars_from_file`,
contradicting the claimed trimming and blank-line dropping. -/
theorem claim_C3_counterexample :
    get_env_vars_from_file ("  #c\n\nA=1") = [("  #c"), (""), ("A=1")] ∧
    rustStartsWith (rustTrim ("  #c")) ("#") = true := by
  refine ⟨by decide, by decide⟩

/-- Claim C3 (amended): `get_env_vars_from_file` drops exactly the lines
whose first character is `#` (no trimming), returns every other line of
the file verbatim — blank lines included — and preserves file order. -/
theorem claim_C3_amended :
    ∀ content : String,
      (get_env_vars_from_file content).Sublist (rustLines content) ∧
      (∀ l, l ∈ get_env_vars_from_file content ↔
        l ∈ rustLines content ∧ rustStartsWith l ("#") = false) := by
  intro content
  constructor
  · exact List.filter_sublist _
  · intro l
    simp [get_env_vars_from_file, List.mem_filter]

/-- Claim C5: a failed subprocess makes `process_envrc` return the error
carrying the captured stderr, and no variable mapping is produced. -/
theorem claim_C5_process_envrc_failure :
    ∀ out : ProcessOutput, out.success = false →
      process_envrc out =
        Except.error (("Bash script execution failed: ") ++ out.stderr) ∧
      ∀ m, ¬process_envrc out = Except.ok m := by
  intro out h
  constructor
  · simp [process_envrc, h]
  · intro m hC
    simp [process_envrc, h] at hC

/-- Claim C5, witness: a failing run whose stdout even contains a
well-formed variable block still yields only the error. -/
theorem claim_C5_witness :
    process_envrc
        ⟨false, ("=== ENVY_ENV_START ===\nFOO=bar\n=== ENVY_ENV_END ==="),
          ("boom")⟩ =
      Except.error ("Bash script execution failed: boom") :=
  (claim_C5_process_envrc_failure _ rfl).1

/-- Claim C7: a registered file is active for a directory exactly when
the directory equals, or is a component-wise descendant of, the file's
parent directory. -/
theorem claim_C7_matching_env_files :
    ∀ (s : EnvySettings) (dir f : EnvPath), f ∈ s.envs.getD [] →
      (f ∈ matching_env_files s dir ↔ activeFor f dir = true) := by
  intro s dir f hf
  rw [matching_env_files, List.mem_filter]
  simp [hf, activeFor]

/-- Claim C7, witness: a file registered at `/a/b/.env` is active for
`/a/b` and `/a/b/c/d` but not for `/a` or `/a/x`. -/
theorem claim_C7_witness :
    (["a", "b", (".env")] ∈
      matching_env_files ⟨some [["a", "b", (".env")]], none⟩ ["a", "b"]) ∧
    (["a", "b", (".env")] ∈
      matching_env_files ⟨some [["a", "b", (".env")]], none⟩
        ["a", "b", "c", "d"]) ∧
    matching_env_files ⟨some [["a", "b", (".env")]], none⟩ ["a"] = [] ∧
    matching_env_files ⟨some [["a", "b", (".env")]], none⟩ ["a", "x"] = [] := by
  refine ⟨?_, ?_, by decide, by decide⟩
  · exact (claim_C7_matching_env_files _ _ _ (by decide)).mpr (by decide)
  · exact (claim_C7_matching_env_files _ _ _ (by decide)).mpr (by decide)

/-- Claim C8: `matching_patterns` returns none when no rule (or no rule
list) matches, and otherwise the variables of the first matching rule in
registration order, regardless of later matches. -/
theorem claim_C8_matching_patterns :
    ∀ (s : EnvySettings) (dir : EnvPath),
      (s.paths = none → matching_patterns s dir = none) ∧
      (∀ ps, s.paths = some ps →
        ((∀ pc ∈ ps, pc.pattern (pathStr dir) = false) →
            matching_patterns s dir = none) ∧
        (∀ pre pc post, ps = pre ++ pc :: post →
            (∀ q ∈ pre, q.pattern (pathStr dir) = false) →
            pc.pattern (pathStr dir) = true →
            matching_patterns s dir = some pc.env)) := by
  intro s dir
  constructor
  · intro h
    simp [matching_patterns, h]
  · intro ps hps
    constructor
    · intro hall
      have hnone : ps.find? (fun pc => pc.pattern (pathStr dir)) = none :=
        List.find?_eq_none.mpr (fun x hx => by simp [hall x hx])
      simp [matching_patterns, hps, hnone]
    · intro pre pc post hdec hpre hpc
      have h1 : pre.find? (fun q => q.pattern (pathStr dir)) = none :=
        List.find?_eq_none.mpr (fun x hx => by simp [hpre x hx])
      have hfind : (pre ++ pc :: post).find?
          (fun q => q.pattern (pathStr dir)) = some pc := by
        have h2 : (pc :: post).find? (fun q => q.pattern (pathStr dir)) = some pc := by
          simp [List.find?, hpc]
        rw [List.find?_append, h1, h2]
        rfl
      simp [matching_patterns, hps, hdec, hfind]

/-- Claim C8, witness: two rules both match the directory and the first
registered one wins. -/
theorem claim_C8_witness :
    matching_patterns
        ⟨none,
          some [⟨fun s => rustStartsWith s ("/a"), [("A=1")]⟩,
                ⟨fun _ => true, [("B=2")]⟩]⟩ ["a", "b"] =
      some [("A=1")] := by
  exact ((claim_C8_matching_patterns _ ["a", "b"]).2 _ rfl).2 []
    ⟨fun s => rustStartsWith s ("/a"), [("A=1")]⟩
    [⟨fun _ => true, [("B=2")]⟩] rfl
    (fun q hq => absurd hq (List.not_mem_nil q)) (by decide)

/-- Claim C10: a line with no `=` is emitted by the bash/zsh formatter,
prefixed with `export ` unless already so prefixed, while the fish and
JSON formatters drop it entirely. -/
theorem claim_C10_formatters :
    ∀ (pre post : List String) (v : String), ('=') ∉ v.toList →
      export_bash_zsh (pre ++ v :: post) =
        export_bash_zsh pre ++
          [if rustStartsWith v ("export ") then v else ("export ") ++ v] ++
          export_bash_zsh post ∧
      export_fish (pre ++ v :: post) = export_fish (pre ++ post) ∧
      export_json (pre ++ v :: post) = export_json (pre ++ post) := by
  intro pre post v hv
  have hnone := split_env_var_eq_none hv
  refine ⟨?_, ?_, ?_⟩
  · simp [export_bash_zsh]
  · simp [export_fish, List.filterMap_append, hnone]
  · simp [export_json, List.filterMap_append, hnone]

/-- Claim C10, witness: the malformed line `hello` is present in bash
output with an `export ` prefix and absent from fish and JSON output. -/
theorem claim_C10_witness :
    export_bash_zsh [("A=1"), ("hello"), ("B=2")] =
      [("export A=1"), ("export hello"), ("export B=2")] ∧
    export_fish [("A=1"), ("hello"), ("B=2")] = export_fish [("A=1"), ("B=2")] ∧
    export_json [("A=1"), ("hello"), ("B=2")] = export_json [("A=1"), ("B=2")] := by
  have h := claim_C10_formatters [("A=1")] [("B=2")] ("hello") (by decide)
  exact ⟨h.1.trans (by decide), h.2.1, h.2.2⟩

/-- Claim C4: pattern-rule variables come first and each active file's
variables follow in registration order (the active files being an
order-preserving subsequence of the registered ones), and in the JSON
key-to-value view the last entry for a key wins, so later entries
overwrite earlier ones. -/
theorem claim_C4_merge_precedence :
    ∀ (s : EnvySettings) (fileContent : EnvPath → String) (dir : EnvPath),
      exportVars s fileContent dir =
        (matching_patterns s dir).getD [] ++
          (matching_env_files s dir).flatMap
            (fun f => get_env_vars_from_file (fileContent f)) ∧
      (matching_env_files s dir).Sublist (s.envs.getD []) ∧
      (∀ (env_vars : List String) (k : String),
        lookupKV (export_json env_vars) k =
          ((env_vars.filterMap split_env_var).reverse.find?
            (fun p => p.1 == k)).map (fun p => p.2)) := by
  intro s fileContent dir
  refine ⟨exportVars_decomposed s fileContent dir, List.filter_sublist _, ?_⟩
  intro env_vars k
  rw [export_json, lookupKV_foldl_upsert]
  cases (env_vars.filterMap split_env_var).reverse.find? (fun p => p.1 == k) <;>
    simp [lookupKV]

/-- Claim C1, counterexample: for a registered `.envrc` file the export
path hands the raw file line `echo hi` to the formatter — which is not a
`KEY=value` rendering of anything — while the claimed sandbox data flow
would contribute no variables at all for this run. -/
theorem claim_C1_counterexample :
    exportVars ⟨some [["a", (".envrc")]], none⟩ (fun _ => ("echo hi")) ["a"] =
      [("echo hi")] ∧
    exportVarsSpec ⟨some [["a", (".envrc")]], none⟩ (fun _ => ("echo hi"))
        (fun _ => ⟨true, ("=== ENVY_ENV_START ===\n=== ENVY_ENV_END ===\n"), ("")⟩)
        ["a"] = [] ∧
    is_envrc_file ["a", (".envrc")] = true ∧
    (("echo hi").toList.contains ('=')) = false := by
  refine ⟨by decide, by decide, by decide, by decide⟩

/-- Claim C1 (amended): the export resolution merges the matched pattern
rule's variables with, for each active registered file in order, the
lines produced by the plain env-file reader; no script sandbox is
involved for any file. -/
theorem claim_C1_amended :
    ∀ (s : EnvySettings) (fileContent : EnvPath → String) (dir : EnvPath),
      exportVars s fileContent dir =
        (matching_patterns s dir).getD [] ++
          (matching_env_files s dir).flatMap
            (fun f => get_env_vars_from_file (fileContent f)) :=
  exportVars_decomposed

/-- Claim C6, counterexample: `parse_env_output` trims lines before
splitting (so a padded line yields key `A`, not ` A` as the literal
claim reading would), and it stops at an end-sentinel line even before
any start sentinel (so text before the start sentinel is not always
ignored). -/
theorem claim_C6_counterexample :
    parse_env_output ("=== ENVY_ENV_START ===\n A=b\n=== ENVY_ENV_END ===") =
      [(("A"), ("b"))] ∧
    parseEnvOutputClaimed
        ("=== ENVY_ENV_START ===\n A=b\n=== ENVY_ENV_END ===") =
      [((" A"), ("b"))] ∧
    parse_env_output
        ("=== ENVY_ENV_END ===\n=== ENVY_ENV_START ===\nA=b\n=== ENVY_ENV_END ===") =
      [] ∧
    parseEnvOutputClaimed
        ("=== ENVY_ENV_END ===\n=== ENVY_ENV_START ===\nA=b\n=== ENVY_ENV_END ===") =
      [(("A"), ("b"))] := by
  refine ⟨by decide, by decide, by decide, by decide⟩

/-- Claim C6 (amended): `parse_env_output` behaves as the amended
specification: lines are trimmed before sentinel comparison and
splitting, parsing stops at the first end-sentinel line, and between the
sentinels blank lines, further start-sentinel lines, and lines without
`=` are skipped while the remaining lines are split on the first `=`
with the last occurrence of a key winning. -/
theorem claim_C6_amended :
    ∀ output : String, parse_env_output output = parseEnvOutputAmendedSpec output := by
  intro output
  simp only [parse_env_output]
  rw [parseEnvLoop_false]
  rfl

/-- Claim C9: parsing is total and bounded: with no start-sentinel line
the result is the empty mapping, the loop never inspects anything past
the first end-sentinel line, and a successful subprocess always yields
the parsed mapping, never an error. -/
theorem claim_C9_parse_total :
    (∀ output : String,
        (∀ l ∈ rustLines output, rustTrim l ≠ envStartMarker) →
          parse_env_output output = []) ∧
    (∀ (pre post : List String) (m : List (String × String)) (b : Bool),
        parseEnvLoop (pre ++ envEndMarker :: post) m b =
          parseEnvLoop (pre ++ [envEndMarker]) m b) ∧
    (∀ out : ProcessOutput, out.success = true →
        process_envrc out = Except.ok (parse_env_output out.stdout)) := by
  refine ⟨?_, parseEnvLoop_stop, ?_⟩
  · intro output h
    simp only [parse_env_output]
    rw [parseEnvLoop_false]
    have hdrop : (((rustLines output).map rustTrim).takeWhile
        (fun l => l != envEndMarker)).dropWhile (fun l => l != envStartMarker) = [] := by
      rw [List.dropWhile_eq_nil_iff]
      intro x hx
      have hx2 : x ∈ (rustLines output).map rustTrim :=
        (List.takeWhile_sublist _).subset hx
      obtain ⟨l, hl, rfl⟩ := List.mem_map.mp hx2
      simpa [bne_iff_ne] using h l hl
    rw [hdrop]
    rfl
  · intro out h
    simp [process_envrc, h]

/-- Claim C9, witness: key/value text with no sentinels parses to the
empty mapping, and a successful run with sentinel-free stdout yields an
ok empty mapping. -/
theorem claim_C9_witness :
    parse_env_output ("FOO=bar\nBAZ=1") = [] ∧
    process_envrc ⟨true, ("hello"), ("")⟩ = Except.ok [] := by
  constructor
  · exact claim_C9_parse_total.1 ("FOO=bar\nBAZ=1") (by decide)
  · exact claim_C9_parse_total.2.2 ⟨true, ("hello"), ("")⟩ rfl

end Envy
